import Mathlib

/-!
# benchmark_rdtsc: calibration and corrected cycle measurements

A shallow embedding of `benchmark_rdtsc.c` and `benchmark_rdtsc1.c`.

* `uint64_t` values are natural numbers below `2 ^ 64`; every unsigned operation of the
  source is written with its explicit reduction modulo `2 ^ 64`.
* The hardware is an environment `Env`: the value `__rdtsc` yields at its `k`-th execution and
  whether the `k`-th `malloc` succeeds.  The program state `Machine` counts those calls, holds
  the globals and records what the program writes.
* `__cpuid` only serialises the pipeline; it has no effect on the state carried here.
-/

/-! ## Machine integers -/

/-- The macro `UINT64_MAX` of `<stdint.h>`. -/
def UINT64_MAX : Nat := 2 ^ 64 - 1

/-- The macro `INT_MAX` of `<limits.h>` for the 32-bit `int` of x86. -/
def INT_MAX : Int := 2147483647

/-- The macro `INT_MIN` of `<limits.h>` for the 32-bit `int` of x86. -/
def INT_MIN : Int := -2147483648

/-- Subtraction `a - b` of two `uint64_t` operands: the difference reduced modulo `2 ^ 64`. -/
def sub64 (a b : Nat) : Nat := (a + (2 ^ 64 - b % 2 ^ 64)) % 2 ^ 64

/-- Addition `a + b` of two `uint64_t` operands: the sum reduced modulo `2 ^ 64`. -/
def add64 (a b : Nat) : Nat := (a + b) % 2 ^ 64

/-- Conversion of an `int` to `uint64_t` (the usual arithmetic conversion applied to the
right operand of `totalElapsed / iterations`). -/
def toU64 (x : Int) : Nat := (x % 2 ^ 64).toNat

/-- The value an x86 `add` leaves in a 32-bit `int` object: the exact sum wrapped into
`[INT_MIN, INT_MAX]` (two's complement). -/
def wrapInt32 (x : Int) : Int := (x + 2 ^ 31) % 2 ^ 32 - 2 ^ 31

/-- A run-time fault. -/
inductive Fault where
  /-- Raised by evaluating an unsigned 64-bit division whose divisor is zero; carries the
  dividend. -/
  | divideByZero (dividend : Nat)
  deriving DecidableEq, Repr

/-- Division `a / b` of two `uint64_t` operands; evaluating it with `b = 0` faults. -/
def div64 (a b : Nat) : Except Fault Nat :=
  if b = 0 then Except.error (Fault.divideByZero a) else Except.ok (a / b)

/-! ## Environment and program state -/

/-- What the platform supplies. -/
structure Env where
  /-- The value the time-stamp counter yields at the `k`-th execution of `__rdtsc`. -/
  tsc : Nat → Nat
  /-- Whether the `k`-th call of `malloc` returns a non-NULL pointer. -/
  mallocOk : Nat → Bool

/-- One line written to standard output by `printf`. -/
inductive Output where
  /-- The line `Calibrando el medidor RDTSC...`. -/
  | calibrando
  /-- The line `Correction factor %llu clocks`. -/
  | correctionFactor (n : Nat)
  /-- The line `Measurement Accuracy (in clocks) : %llu`. -/
  | accuracy (n : Nat)
  /-- The line `Elapsed clocks for loop: %llu`. -/
  | elapsedLoop (n : Nat)
  /-- The line `Iteracion %d - Elapsed clocks: %llu`. -/
  | iteracion (i : Int) (n : Nat)
  /-- The line `Tiempo promedio (en ciclos) para testOperation: %llu`. -/
  | promedio (n : Nat)
  deriving DecidableEq, Repr

/-- The text of an output line, as the format strings of the source produce it. -/
def Output.render : Output → String
  | Output.calibrando => "Calibrando el medidor RDTSC...\n"
  | Output.correctionFactor n => "Correction factor " ++ toString n ++ " clocks\n"
  | Output.accuracy n => "Measurement Accuracy (in clocks) : " ++ toString n ++ "\n"
  | Output.elapsedLoop n => "Elapsed clocks for loop: " ++ toString n ++ "\n"
  | Output.iteracion i n =>
      "Iteracion " ++ toString i ++ " - Elapsed clocks: " ++ toString n ++ "\n"
  | Output.promedio n =>
      "Tiempo promedio (en ciclos) para testOperation: " ++ toString n ++ "\n"

/-- An operation `flushCache` performs on its scratch buffer and on the memory system. -/
inductive MemOp where
  /-- The store `buffer[i] = (char)i`; `v` is the byte stored. -/
  | store (i : Nat) (v : Nat)
  /-- The instruction `_mm_clflush(&buffer[i])`. -/
  | clflush (i : Nat)
  /-- The memory fence `_mm_mfence()` or `__builtin_ia32_mfence()`. -/
  | mfence
  /-- The call `free(buffer)`. -/
  | free
  deriving DecidableEq, Repr

/-- The program state. -/
structure Machine where
  /-- Number of `__rdtsc` executions so far. -/
  rdtscCalls : Nat
  /-- Number of `malloc` calls so far. -/
  mallocCalls : Nat
  /-- The global `g_correctionFactor`. -/
  g_correctionFactor : Nat
  /-- The global `g_accuracy`. -/
  g_accuracy : Nat
  /-- The `volatile int dummy` accumulator of the workload. -/
  dummy : Int
  /-- Lines written to standard output, oldest first. -/
  stdout : List Output
  /-- Messages written to standard error by `perror`, oldest first. -/
  stderr : List String
  /-- Buffer stores, cache-line flushes, fences and frees performed, oldest first. -/
  memOps : List MemOp

/-- The state at program start: zero-initialised globals, nothing called, nothing written. -/
def Machine.init : Machine :=
  { rdtscCalls := 0, mallocCalls := 0, g_correctionFactor := 0, g_accuracy := 0,
    dummy := 0, stdout := [], stderr := [], memOps := [] }

/-- The call `printf(...)` producing the line `o`. -/
def printf (o : Output) (m : Machine) : Machine :=
  { m with stdout := m.stdout ++ [o] }

/-- The correction of a raw elapsed value (`benchmark_rdtsc.c` lines 221-223,
`benchmark_rdtsc1.c` lines 159-161):
`if (elapsed > g_correctionFactor) { elapsed -= g_correctionFactor; }`. -/
def correctElapsed (elapsed g_correctionFactor : Nat) : Nat :=
  if elapsed > g_correctionFactor then sub64 elapsed g_correctionFactor else elapsed

/-- The loop `for (int i = 0; i < 100000000; i++) { dummy += i; }`, as the machine runs it:
`n` iterations remain, `i` is the loop variable, and every addition wraps to 32 bits. -/
def sumLoop : Nat → Int → Int → Int
  | 0, _, dummy => dummy
  | n + 1, i, dummy => sumLoop n (i + 1) (wrapInt32 (dummy + i))

/-- The same loop with every addition checked against the range of `int`: `none` as soon as
an exact sum `dummy + i` falls outside `[INT_MIN, INT_MAX]` (signed overflow). -/
def sumLoopChecked : Nat → Int → Int → Option Int
  | 0, _, dummy => some dummy
  | n + 1, i, dummy =>
      if INT_MIN ≤ dummy + i ∧ dummy + i ≤ INT_MAX then sumLoopChecked n (i + 1) (dummy + i)
      else none

/-! ## benchmark_rdtsc.c -/

namespace benchmark_rdtsc

/-- `GetRDTSC`: serialise with `__cpuid`, then return `__rdtsc()` as a `uint64_t`. -/
def GetRDTSC (env : Env) (m : Machine) : Nat × Machine :=
  (env.tsc m.rdtscCalls % 2 ^ 64, { m with rdtscCalls := m.rdtscCalls + 1 })

/-- The loop of `WarmupRDTSC` with `n` iterations remaining: two back-to-back reads, their
difference, and the running minimum and maximum. -/
def warmupLoop (env : Env) : Nat → Machine → Nat → Nat → Machine × Nat × Nat
  | 0, m, minDiff, maxDiff => (m, minDiff, maxDiff)
  | n + 1, m, minDiff, maxDiff =>
      let (tick1, m1) := GetRDTSC env m
      let (tick2, m2) := GetRDTSC env m1
      let diff := sub64 tick2 tick1
      let minDiff := if diff < minDiff then diff else minDiff
      let maxDiff := if diff > maxDiff then diff else maxDiff
      warmupLoop env n m2 minDiff maxDiff

/-- `WarmupRDTSC` (lines 171-201). -/
def WarmupRDTSC (env : Env) (m : Machine) : Machine :=
  let (m, minDiff, maxDiff) := warmupLoop env 80 m UINT64_MAX 0
  let m := { m with g_correctionFactor := minDiff }
  let m := printf (Output.correctionFactor m.g_correctionFactor) m
  let m := { m with g_accuracy := sub64 maxDiff minDiff }
  printf (Output.accuracy m.g_accuracy) m

/-- `main` (lines 204-227): calibrate, then time the summing loop once. -/
def main (env : Env) (m : Machine) : Machine :=
  let m := printf Output.calibrando m
  let m := WarmupRDTSC env m
  let (start, m) := GetRDTSC env m
  let m := { m with dummy := 0 }
  let m := { m with dummy := sumLoop 100000000 0 m.dummy }
  let (end_, m) := GetRDTSC env m
  let elapsed := sub64 end_ start
  let elapsed := correctElapsed elapsed m.g_correctionFactor
  printf (Output.elapsedLoop elapsed) m

end benchmark_rdtsc

/-! ## benchmark_rdtsc1.c -/

namespace benchmark_rdtsc1

/-- `GetRDTSC`: serialise with `__cpuid`, then return `__rdtsc()` as a `uint64_t`. -/
def GetRDTSC (env : Env) (m : Machine) : Nat × Machine :=
  (env.tsc m.rdtscCalls % 2 ^ 64, { m with rdtscCalls := m.rdtscCalls + 1 })

/-- The loop of `WarmupRDTSC` with `n` iterations remaining. -/
def warmupLoop (env : Env) : Nat → Machine → Nat → Nat → Machine × Nat × Nat
  | 0, m, minDiff, maxDiff => (m, minDiff, maxDiff)
  | n + 1, m, minDiff, maxDiff =>
      let (tick1, m1) := GetRDTSC env m
      let (tick2, m2) := GetRDTSC env m1
      let diff := sub64 tick2 tick1
      let minDiff := if diff < minDiff then diff else minDiff
      let maxDiff := if diff > maxDiff then diff else maxDiff
      warmupLoop env n m2 minDiff maxDiff

/-- `WarmupRDTSC` (lines 69-99). -/
def WarmupRDTSC (env : Env) (m : Machine) : Machine :=
  let (m, minDiff, maxDiff) := warmupLoop env 80 m UINT64_MAX 0
  let m := { m with g_correctionFactor := minDiff }
  let m := printf (Output.correctionFactor m.g_correctionFactor) m
  let m := { m with g_accuracy := sub64 maxDiff minDiff }
  printf (Output.accuracy m.g_accuracy) m

/-- The constant `cacheSize = 10 * 1024 * 1024` of `flushCache`. -/
def cacheSize : Nat := 10 * 1024 * 1024

/-- The loop `for (size_t i = 0; i < cacheSize; i += 64)` of `flushCache` with `n`
iterations remaining: store the low byte of `i` at `buffer[i]`, then flush that line. -/
def flushLoop : Nat → Nat → Machine → Machine
  | 0, _, m => m
  | n + 1, i, m =>
      flushLoop n (i + 64)
        { m with memOps := m.memOps ++ [MemOp.store i (i % 256), MemOp.clflush i] }

/-- `flushCache` (lines 103-122). -/
def flushCache (env : Env) (m : Machine) : Machine :=
  let buffer := env.mallocOk m.mallocCalls
  let m := { m with mallocCalls := m.mallocCalls + 1 }
  if !buffer then
    { m with stderr := m.stderr ++ ["No se pudo asignar el buffer para flushCache"] }
  else
    let m := flushLoop ((cacheSize + 63) / 64) 0 m
    let m := { m with memOps := m.memOps ++ [MemOp.mfence] }
    { m with memOps := m.memOps ++ [MemOp.free] }

/-- `testOperation` (lines 126-131). -/
def testOperation (m : Machine) : Machine :=
  let m := { m with dummy := 0 }
  { m with dummy := sumLoop 100000000 0 m.dummy }

/-- The body of the trial loop of `main` (lines 140-165) for loop variable `i`. -/
def trial (env : Env) (i : Int) (m : Machine) (totalElapsed : Nat) : Machine × Nat :=
  let m := flushCache env m
  let (start, m) := GetRDTSC env m
  let m := testOperation m
  let (end_, m) := GetRDTSC env m
  let elapsed := sub64 end_ start
  let elapsed := correctElapsed elapsed m.g_correctionFactor
  let m := printf (Output.iteracion (i + 1) elapsed) m
  (m, add64 totalElapsed elapsed)

/-- The loop `for (int i = 0; i < iterations; i++)` of `main` with `n` iterations
remaining. -/
def trialLoop (env : Env) : Nat → Int → Machine → Nat → Machine × Nat
  | 0, _, m, totalElapsed => (m, totalElapsed)
  | n + 1, i, m, totalElapsed =>
      let (m, totalElapsed) := trial env i m totalElapsed
      trialLoop env n (i + 1) m totalElapsed

/-- Lines 138-168 of `main` as a function of the trial count `iterations`: the trial loop,
then `totalElapsed / iterations` and the line reporting the average. -/
def measureAveraged (env : Env) (iterations : Int) (m : Machine) : Except Fault Machine :=
  let (m, totalElapsed) := trialLoop env iterations.toNat 0 m 0
  match div64 totalElapsed (toU64 iterations) with
  | Except.error f => Except.error f
  | Except.ok averageElapsed => Except.ok (printf (Output.promedio averageElapsed) m)

/-- The constant `iterations = 20` of `main`. -/
def iterations : Int := 20

/-- `main` (lines 133-171). -/
def main (env : Env) (m : Machine) : Except Fault Machine :=
  let m := printf Output.calibrando m
  let m := WarmupRDTSC env m
  measureAveraged env iterations m

end benchmark_rdtsc1

/-! ## Specification-level notions -/

/-- The `k`-th value a run obtains from the counter, as a `uint64_t`. -/
def reading (env : Env) (k : Nat) : Nat := env.tsc k % 2 ^ 64

/-- The `i`-th calibration delta `(r_{2i+1} - r_{2i}) mod 2 ^ 64` of the readings that start
at call number `base`. -/
def delta (env : Env) (base i : Nat) : Int :=
  ((reading env (base + 2 * i + 1) : Int) - (reading env (base + 2 * i) : Int)) % 2 ^ 64

/-- The raw elapsed value `(end - start) mod 2 ^ 64`. -/
def rawElapsed (start end_ : Nat) : Int := ((end_ : Int) - (start : Int)) % 2 ^ 64

/-- The `i`-th calibration delta as the unsigned subtraction of the source computes it. -/
def deltaN (env : Env) (base i : Nat) : Nat :=
  sub64 (reading env (base + 2 * i + 1)) (reading env (base + 2 * i))

/-- What `n` iterations of the calibration loop leave behind, in terms of the deltas of the
readings they consume. -/
structure LoopPost (env : Env) (n : Nat) (m : Machine) (minDiff maxDiff : Nat)
    (r : Machine × Nat × Nat) : Prop where
  machine : r.1 = { m with rdtscCalls := m.rdtscCalls + 2 * n }
  min_le_init : r.2.1 ≤ minDiff
  min_le : ∀ i, i < n → r.2.1 ≤ deltaN env m.rdtscCalls i
  min_attained : r.2.1 = minDiff ∨ ∃ j, j < n ∧ r.2.1 = deltaN env m.rdtscCalls j
  init_le_max : maxDiff ≤ r.2.2
  le_max : ∀ i, i < n → deltaN env m.rdtscCalls i ≤ r.2.2
  max_attained : r.2.2 = maxDiff ∨ ∃ j, j < n ∧ r.2.2 = deltaN env m.rdtscCalls j

/-- What one calibration leaves behind: the state `m2` reached from `m1` has consumed the 160
readings that follow `m1.rdtscCalls`, stores the least delta `lo` and the spread `hi - lo`,
and has printed both. -/
structure Calibrated (env : Env) (m1 m2 : Machine) (lo hi : Nat) : Prop where
  machine : m2 = { m1 with
    rdtscCalls := m1.rdtscCalls + 160
    g_correctionFactor := lo
    g_accuracy := hi - lo
    stdout := m1.stdout ++ [Output.correctionFactor lo, Output.accuracy (hi - lo)] }
  lo_le : ∀ i, i < 80 → lo ≤ deltaN env m1.rdtscCalls i
  lo_attained : ∃ j, j < 80 ∧ lo = deltaN env m1.rdtscCalls j
  le_hi : ∀ i, i < 80 → deltaN env m1.rdtscCalls i ≤ hi
  hi_attained : ∃ j, j < 80 ∧ hi = deltaN env m1.rdtscCalls j

/-- The corrected elapsed value of the `t`-th trial: the correction with factor `cf` of the
raw difference of the pair of readings `base + 2 * t`, `base + 2 * t + 1`. -/
def trialElapsed (env : Env) (cf base t : Nat) : Nat :=
  correctElapsed (sub64 (reading env (base + 2 * t + 1)) (reading env (base + 2 * t))) cf

/-- The exact (unbounded) integer sum of the corrected elapsed values of `k` trials. -/
def exactSum (env : Env) (cf base k : Nat) : Nat :=
  ((List.range k).map (trialElapsed env cf base)).sum

/-- The lines the `k` trials print: `Iteracion t+1` with the corrected value of trial `t`. -/
def trialLines (env : Env) (cf base k : Nat) : List Output :=
  (List.range k).map
    (fun (t : Nat) => Output.iteracion ((t : Int) + 1) (trialElapsed env cf base t))

/-- The exact sum `i + (i + 1) + ... + (i + n - 1)` of the `n` values the loop adds. -/
def sumFrom : Nat → Int → Int
  | 0, _ => 0
  | n + 1, i => i + sumFrom n (i + 1)

/-- The correction factor stored in `m2` by a calibration started in `m1` is the minimum of
the 80 deltas of the 160 readings the calibration consumed. -/
structure StoresMinimum (env : Env) (m1 m2 : Machine) : Prop where
  le_all : ∀ i, i < 80 → (m2.g_correctionFactor : Int) ≤ delta env m1.rdtscCalls i
  attained : ∃ j, j < 80 ∧ (m2.g_correctionFactor : Int) = delta env m1.rdtscCalls j
  consumed : m2.rdtscCalls = m1.rdtscCalls + 160

/-- The loop of a calibration started in `m1` ends with `maxDiff` the maximum of the 80
deltas and `minDiff ≤ maxDiff`; the subtraction `maxDiff - minDiff` does not wrap and `m2`
stores the exact spread. -/
structure StoresSpread (env : Env) (m1 m2 : Machine) (minDiff maxDiff : Nat) : Prop where
  ge_all : ∀ i, i < 80 → delta env m1.rdtscCalls i ≤ (maxDiff : Int)
  attained : ∃ j, j < 80 ∧ (maxDiff : Int) = delta env m1.rdtscCalls j
  min_le_max : minDiff ≤ maxDiff
  no_wrap : ((sub64 maxDiff minDiff : Nat) : Int) = (maxDiff : Int) - (minDiff : Int)
  factor : m2.g_correctionFactor = minDiff
  accuracy : (m2.g_accuracy : Int) = (maxDiff : Int) - (minDiff : Int)
  sum : m2.g_correctionFactor + m2.g_accuracy = maxDiff
  all_five : (∀ i, i < 80 → delta env m1.rdtscCalls i = 5) →
    m2.g_correctionFactor = 5 ∧ m2.g_accuracy = 0

/-! ## Concrete environments -/

/-- A counter advancing five cycles between reads; every allocation succeeds. -/
def steadyEnv : Env := { tsc := fun k => 5 * k, mallocOk := fun _ => true }

/-- The same counter on a machine where every allocation fails. -/
def noMemoryEnv : Env := { tsc := fun k => 5 * k, mallocOk := fun _ => false }

/-- A counter that reads `1` at every even call and `0` at every odd call: each pair
`(start, end) = (1, 0)` has raw elapsed value `2 ^ 64 - 1`. -/
def wrapEnv : Env := { tsc := fun k => if k % 2 = 0 then 1 else 0, mallocOk := fun _ => true }

/-- A state whose globals hold the values an earlier calibration left. -/
def staleMachine : Machine :=
  { Machine.init with g_correctionFactor := 1084, g_accuracy := 47563 }

/-! ## Arithmetic of the machine integers -/

theorem reading_lt (env : Env) (k : Nat) : reading env k < 2 ^ 64 := by
  unfold reading
  omega

theorem sub64_lt (a b : Nat) : sub64 a b < 2 ^ 64 := by
  unfold sub64
  omega

theorem sub64_cast (a b : Nat) :
    ((sub64 a b : Nat) : Int) = ((a : Int) - (b : Int)) % 2 ^ 64 := by
  unfold sub64
  omega

theorem sub64_of_le (a b : Nat) (ha : a < 2 ^ 64) (hba : b ≤ a) : sub64 a b = a - b := by
  unfold sub64
  omega

theorem deltaN_cast (env : Env) (base i : Nat) :
    ((deltaN env base i : Nat) : Int) = delta env base i := by
  unfold deltaN delta
  exact sub64_cast _ _

theorem deltaN_lt (env : Env) (base i : Nat) : deltaN env base i < 2 ^ 64 :=
  sub64_lt _ _

theorem deltaN_shift (env : Env) (base i : Nat) :
    deltaN env (base + 2) i = deltaN env base (i + 1) := by
  unfold deltaN
  have h1 : base + 2 + 2 * i + 1 = base + 2 * (i + 1) + 1 := by omega
  have h2 : base + 2 + 2 * i = base + 2 * (i + 1) := by omega
  rw [h1, h2]

/-! ## The calibration loop -/

namespace benchmark_rdtsc

theorem warmupLoop_succ (env : Env) (n : Nat) (m : Machine) (minDiff maxDiff : Nat) :
    warmupLoop env (n + 1) m minDiff maxDiff =
      warmupLoop env n { m with rdtscCalls := m.rdtscCalls + 2 }
        (if deltaN env m.rdtscCalls 0 < minDiff then deltaN env m.rdtscCalls 0 else minDiff)
        (if deltaN env m.rdtscCalls 0 > maxDiff then deltaN env m.rdtscCalls 0 else maxDiff) := by
  simp [warmupLoop, GetRDTSC, deltaN, reading]

theorem warmupLoop_post (env : Env) (n : Nat) :
    ∀ (m : Machine) (minDiff maxDiff : Nat),
      LoopPost env n m minDiff maxDiff (warmupLoop env n m minDiff maxDiff) := by
  induction n with
  | zero =>
    intro m minDiff maxDiff
    refine ⟨rfl, le_refl _, fun i hi => absurd hi (Nat.not_lt_zero i), Or.inl rfl, le_refl _,
      fun i hi => absurd hi (Nat.not_lt_zero i), Or.inl rfl⟩
  | succ n ih =>
    intro m minDiff maxDiff
    rw [warmupLoop_succ]
    have h := ih { m with rdtscCalls := m.rdtscCalls + 2 }
      (if deltaN env m.rdtscCalls 0 < minDiff then deltaN env m.rdtscCalls 0 else minDiff)
      (if deltaN env m.rdtscCalls 0 > maxDiff then deltaN env m.rdtscCalls 0 else maxDiff)
    generalize warmupLoop env n { m with rdtscCalls := m.rdtscCalls + 2 }
      (if deltaN env m.rdtscCalls 0 < minDiff then deltaN env m.rdtscCalls 0 else minDiff)
      (if deltaN env m.rdtscCalls 0 > maxDiff then deltaN env m.rdtscCalls 0 else maxDiff) = r at h
    obtain ⟨hm, h1, h2, h3, h4, h5, h6⟩ := h
    simp only [deltaN_shift] at h2 h3 h5 h6
    have hmin : (if deltaN env m.rdtscCalls 0 < minDiff then deltaN env m.rdtscCalls 0
        else minDiff) ≤ minDiff := by split <;> omega
    have hmin0 : (if deltaN env m.rdtscCalls 0 < minDiff then deltaN env m.rdtscCalls 0
        else minDiff) ≤ deltaN env m.rdtscCalls 0 := by split <;> omega
    have hmax : maxDiff ≤ (if deltaN env m.rdtscCalls 0 > maxDiff then deltaN env m.rdtscCalls 0
        else maxDiff) := by split <;> omega
    have hmax0 : deltaN env m.rdtscCalls 0 ≤ (if deltaN env m.rdtscCalls 0 > maxDiff
        then deltaN env m.rdtscCalls 0 else maxDiff) := by split <;> omega
    refine ⟨?_, le_trans h1 hmin, ?_, ?_, le_trans hmax h4, ?_, ?_⟩
    · rw [hm]
      simp only [Machine.mk.injEq, and_true, true_and]
      omega
    · intro i hi
      cases i with
      | zero => exact le_trans h1 hmin0
      | succ i => exact h2 i (by omega)
    · rcases h3 with h3 | ⟨j, hj, h3⟩
      · by_cases hc : deltaN env m.rdtscCalls 0 < minDiff
        · right
          exact ⟨0, by omega, by rw [h3, if_pos hc]⟩
        · left
          rw [h3, if_neg hc]
      · right
        exact ⟨j + 1, by omega, h3⟩
    · intro i hi
      cases i with
      | zero => exact le_trans hmax0 h4
      | succ i => exact h5 i (by omega)
    · rcases h6 with h6 | ⟨j, hj, h6⟩
      · by_cases hc : deltaN env m.rdtscCalls 0 > maxDiff
        · right
          exact ⟨0, by omega, by rw [h6, if_pos hc]⟩
        · left
          rw [h6, if_neg hc]
      · right
        exact ⟨j + 1, by omega, h6⟩

end benchmark_rdtsc

/-! ## The calibration routine -/

theorem Calibrated.lo_le_hi {env : Env} {m1 m2 : Machine} {lo hi : Nat}
    (h : Calibrated env m1 m2 lo hi) : lo ≤ hi :=
  le_trans (h.lo_le 0 (by decide)) (h.le_hi 0 (by decide))

theorem Calibrated.hi_lt {env : Env} {m1 m2 : Machine} {lo hi : Nat}
    (h : Calibrated env m1 m2 lo hi) : hi < 2 ^ 64 := by
  obtain ⟨j, _, hj⟩ := h.hi_attained
  rw [hj]
  exact deltaN_lt _ _ _

namespace benchmark_rdtsc

theorem WarmupRDTSC_calibrated (env : Env) (m : Machine) :
    Calibrated env m (WarmupRDTSC env m) (warmupLoop env 80 m UINT64_MAX 0).2.1
      (warmupLoop env 80 m UINT64_MAX 0).2.2 := by
  have h := warmupLoop_post env 80 m UINT64_MAX 0
  have hdef : WarmupRDTSC env m =
      { (warmupLoop env 80 m UINT64_MAX 0).1 with
        g_correctionFactor := (warmupLoop env 80 m UINT64_MAX 0).2.1
        g_accuracy := sub64 (warmupLoop env 80 m UINT64_MAX 0).2.2
          (warmupLoop env 80 m UINT64_MAX 0).2.1
        stdout := (warmupLoop env 80 m UINT64_MAX 0).1.stdout ++
          [Output.correctionFactor (warmupLoop env 80 m UINT64_MAX 0).2.1,
           Output.accuracy (sub64 (warmupLoop env 80 m UINT64_MAX 0).2.2
            (warmupLoop env 80 m UINT64_MAX 0).2.1)] } := by
    simp [WarmupRDTSC, printf]
  rw [hdef]
  generalize warmupLoop env 80 m UINT64_MAX 0 = r at h
  obtain ⟨hm, _, h2, h3, _, h5, h6⟩ := h
  have h0 := deltaN_lt env m.rdtscCalls 0
  have hlo0 := h2 0 (by decide)
  have hhi0 := h5 0 (by decide)
  have hlo : ∃ j, j < 80 ∧ r.2.1 = deltaN env m.rdtscCalls j := by
    rcases h3 with h3 | h3
    · refine ⟨0, by decide, ?_⟩
      rw [h3] at hlo0 ⊢
      unfold UINT64_MAX at hlo0 ⊢
      omega
    · exact h3
  have hhi : ∃ j, j < 80 ∧ r.2.2 = deltaN env m.rdtscCalls j := by
    rcases h6 with h6 | h6
    · refine ⟨0, by decide, ?_⟩
      omega
    · exact h6
  have hlt : r.2.2 < 2 ^ 64 := by
    obtain ⟨j, _, hj⟩ := hhi
    rw [hj]
    exact deltaN_lt _ _ _
  have hsub : sub64 r.2.2 r.2.1 = r.2.2 - r.2.1 := sub64_of_le _ _ hlt (le_trans hlo0 hhi0)
  refine ⟨?_, h2, hlo, h5, hhi⟩
  rw [hm, hsub]

theorem WarmupRDTSC_calibrated_ex (env : Env) (m : Machine) :
    ∃ lo hi, Calibrated env m (WarmupRDTSC env m) lo hi :=
  ⟨_, _, WarmupRDTSC_calibrated env m⟩

end benchmark_rdtsc

namespace benchmark_rdtsc1

theorem warmupLoop_eq (env : Env) (n : Nat) :
    ∀ (m : Machine) (minDiff maxDiff : Nat),
      warmupLoop env n m minDiff maxDiff = benchmark_rdtsc.warmupLoop env n m minDiff maxDiff := by
  induction n with
  | zero => intro m minDiff maxDiff; rfl
  | succ n ih =>
    intro m minDiff maxDiff
    simp only [warmupLoop, benchmark_rdtsc.warmupLoop, GetRDTSC, benchmark_rdtsc.GetRDTSC]
    exact ih _ _ _

theorem WarmupRDTSC_eq (env : Env) (m : Machine) :
    WarmupRDTSC env m = benchmark_rdtsc.WarmupRDTSC env m := by
  simp only [WarmupRDTSC, benchmark_rdtsc.WarmupRDTSC, warmupLoop_eq]

theorem WarmupRDTSC1_calibrated (env : Env) (m : Machine) :
    Calibrated env m (WarmupRDTSC env m) (warmupLoop env 80 m UINT64_MAX 0).2.1
      (warmupLoop env 80 m UINT64_MAX 0).2.2 := by
  rw [WarmupRDTSC_eq, warmupLoop_eq]
  exact benchmark_rdtsc.WarmupRDTSC_calibrated env m

theorem WarmupRDTSC1_calibrated_ex (env : Env) (m : Machine) :
    ∃ lo hi, Calibrated env m (WarmupRDTSC env m) lo hi :=
  ⟨_, _, WarmupRDTSC1_calibrated env m⟩

end benchmark_rdtsc1

/-! ## Calibration depends on the readings it takes only -/

namespace benchmark_rdtsc

theorem warmupLoop_congr (env1 env2 : Env) (n : Nat) :
    ∀ (m1 m2 : Machine) (minDiff maxDiff : Nat),
      (∀ k, k < 2 * n → reading env1 (m1.rdtscCalls + k) = reading env2 (m2.rdtscCalls + k)) →
      (warmupLoop env1 n m1 minDiff maxDiff).2 = (warmupLoop env2 n m2 minDiff maxDiff).2 := by
  induction n with
  | zero => intro m1 m2 minDiff maxDiff _; rfl
  | succ n ih =>
    intro m1 m2 minDiff maxDiff h
    have hd : deltaN env1 m1.rdtscCalls 0 = deltaN env2 m2.rdtscCalls 0 := by
      have h0 := h 0 (by omega)
      have h1 := h 1 (by omega)
      simp only [deltaN, Nat.mul_zero, Nat.add_zero] at h0 h1 ⊢
      rw [h0, h1]
    rw [warmupLoop_succ, warmupLoop_succ, hd]
    apply ih
    intro k hk
    have h2 := h (k + 2) (by omega)
    have e1 : m1.rdtscCalls + 2 + k = m1.rdtscCalls + (k + 2) := by omega
    have e2 : m2.rdtscCalls + 2 + k = m2.rdtscCalls + (k + 2) := by omega
    show reading env1 (m1.rdtscCalls + 2 + k) = reading env2 (m2.rdtscCalls + 2 + k)
    rw [e1, e2]
    exact h2

theorem WarmupRDTSC_globals (env : Env) (m : Machine) :
    (WarmupRDTSC env m).g_correctionFactor = (warmupLoop env 80 m UINT64_MAX 0).2.1 ∧
    (WarmupRDTSC env m).g_accuracy =
      sub64 (warmupLoop env 80 m UINT64_MAX 0).2.2 (warmupLoop env 80 m UINT64_MAX 0).2.1 := by
  simp [WarmupRDTSC, printf]

theorem WarmupRDTSC_congr (env1 env2 : Env) (m1 m2 : Machine)
    (h : ∀ k, k < 160 → reading env1 (m1.rdtscCalls + k) = reading env2 (m2.rdtscCalls + k)) :
    (WarmupRDTSC env1 m1).g_correctionFactor = (WarmupRDTSC env2 m2).g_correctionFactor ∧
    (WarmupRDTSC env1 m1).g_accuracy = (WarmupRDTSC env2 m2).g_accuracy := by
  have hl := warmupLoop_congr env1 env2 80 m1 m2 UINT64_MAX 0 h
  obtain ⟨a1, b1⟩ := WarmupRDTSC_globals env1 m1
  obtain ⟨a2, b2⟩ := WarmupRDTSC_globals env2 m2
  rw [a1, a2, b1, b2, hl]
  exact ⟨rfl, rfl⟩

/-! ## The single measurement of `benchmark_rdtsc.c` -/

theorem main_eq (env : Env) (m : Machine) :
    main env m =
      { WarmupRDTSC env (printf Output.calibrando m) with
        rdtscCalls := (WarmupRDTSC env (printf Output.calibrando m)).rdtscCalls + 2
        dummy := sumLoop 100000000 0 0
        stdout := (WarmupRDTSC env (printf Output.calibrando m)).stdout ++
          [Output.elapsedLoop (correctElapsed
            (sub64 (reading env ((WarmupRDTSC env (printf Output.calibrando m)).rdtscCalls + 1))
              (reading env (WarmupRDTSC env (printf Output.calibrando m)).rdtscCalls))
            (WarmupRDTSC env (printf Output.calibrando m)).g_correctionFactor)] } := by
  simp [main, GetRDTSC, printf, reading]

theorem main_post (env : Env) (m : Machine) :
    ∃ lo hi,
      Calibrated env (printf Output.calibrando m)
        (WarmupRDTSC env (printf Output.calibrando m)) lo hi ∧
      (main env m).rdtscCalls = m.rdtscCalls + 162 ∧
      (main env m).g_correctionFactor = lo ∧
      (main env m).stdout = m.stdout ++
        [Output.calibrando, Output.correctionFactor lo, Output.accuracy (hi - lo),
         Output.elapsedLoop (correctElapsed
            (sub64 (reading env (m.rdtscCalls + 161)) (reading env (m.rdtscCalls + 160))) lo)] := by
  obtain ⟨lo, hi, hc⟩ := WarmupRDTSC_calibrated_ex env (printf Output.calibrando m)
  refine ⟨lo, hi, hc, ?_, ?_, ?_⟩
  · rw [main_eq, hc.machine]
    simp [printf]
  · rw [main_eq, hc.machine]
  · rw [main_eq, hc.machine]
    simp [printf]

end benchmark_rdtsc

/-! ## The averaged measurement of `benchmark_rdtsc1.c` -/

theorem trialElapsed_shift (env : Env) (cf base t : Nat) :
    trialElapsed env cf (base + 2) t = trialElapsed env cf base (t + 1) := by
  unfold trialElapsed
  have h1 : base + 2 + 2 * t + 1 = base + 2 * (t + 1) + 1 := by omega
  have h2 : base + 2 + 2 * t = base + 2 * (t + 1) := by omega
  rw [h1, h2]

theorem exactSum_succ (env : Env) (cf base k : Nat) :
    exactSum env cf base (k + 1) = trialElapsed env cf base 0 + exactSum env cf (base + 2) k := by
  unfold exactSum
  rw [List.range_succ_eq_map, List.map_cons, List.sum_cons, List.map_map]
  congr 2
  apply List.map_congr_left
  intro t _
  simp [trialElapsed_shift]

namespace benchmark_rdtsc1

theorem flushLoop_frame (n : Nat) :
    ∀ (i : Nat) (m : Machine), flushLoop n i m = { m with memOps := (flushLoop n i m).memOps } := by
  induction n with
  | zero => intro i m; rfl
  | succ n ih =>
    intro i m
    simp only [flushLoop]
    rw [ih]

theorem flushCache_cases (m : Machine) (n : Nat) (b : Bool) :
    ∃ err ops,
      (if (!b) = true then
        { ({ m with mallocCalls := m.mallocCalls + 1 } : Machine) with
          stderr := m.stderr ++ ["No se pudo asignar el buffer para flushCache"] }
      else
        let m := flushLoop n 0 { m with mallocCalls := m.mallocCalls + 1 }
        let m := { m with memOps := m.memOps ++ [MemOp.mfence] }
        { m with memOps := m.memOps ++ [MemOp.free] }) =
      { m with mallocCalls := m.mallocCalls + 1, stderr := err, memOps := ops } := by
  cases b with
  | false => exact ⟨_, _, rfl⟩
  | true =>
    simp only [Bool.not_true, Bool.false_eq_true, if_false]
    rw [flushLoop_frame]
    exact ⟨_, _, rfl⟩

theorem flushCache_frame (env : Env) (m : Machine) :
    ∃ err ops, flushCache env m =
      { m with mallocCalls := m.mallocCalls + 1, stderr := err, memOps := ops } :=
  flushCache_cases m ((cacheSize + 63) / 64) (env.mallocOk m.mallocCalls)

theorem flushCache_fail (env : Env) (m : Machine) (h : env.mallocOk m.mallocCalls = false) :
    flushCache env m =
      { m with
        mallocCalls := m.mallocCalls + 1
        stderr := m.stderr ++ ["No se pudo asignar el buffer para flushCache"] } := by
  unfold flushCache
  rw [h]
  rfl

theorem testOperation_eq (m : Machine) :
    testOperation m = { m with dummy := sumLoop 100000000 0 0 } :=
  rfl

theorem trial_eq (env : Env) (i : Int) (m : Machine) (totalElapsed : Nat) :
    ∃ err ops, trial env i m totalElapsed =
      ({ m with
          rdtscCalls := m.rdtscCalls + 2
          mallocCalls := m.mallocCalls + 1
          dummy := sumLoop 100000000 0 0
          stdout := m.stdout ++
            [Output.iteracion (i + 1) (trialElapsed env m.g_correctionFactor m.rdtscCalls 0)]
          stderr := err
          memOps := ops },
       add64 totalElapsed (trialElapsed env m.g_correctionFactor m.rdtscCalls 0)) := by
  obtain ⟨err, ops, h⟩ := flushCache_frame env m
  refine ⟨err, ops, ?_⟩
  unfold trial
  rw [h]
  simp [GetRDTSC, testOperation, printf, trialElapsed, reading]

theorem trial_fail (env : Env) (i : Int) (m : Machine) (totalElapsed : Nat)
    (h : env.mallocOk m.mallocCalls = false) :
    trial env i m totalElapsed =
      ({ m with
          rdtscCalls := m.rdtscCalls + 2
          mallocCalls := m.mallocCalls + 1
          dummy := sumLoop 100000000 0 0
          stdout := m.stdout ++
            [Output.iteracion (i + 1) (trialElapsed env m.g_correctionFactor m.rdtscCalls 0)]
          stderr := m.stderr ++ ["No se pudo asignar el buffer para flushCache"] },
       add64 totalElapsed (trialElapsed env m.g_correctionFactor m.rdtscCalls 0)) := by
  unfold trial
  rw [flushCache_fail env m h]
  simp [GetRDTSC, testOperation, printf, trialElapsed, reading]

theorem trialLoop_post (env : Env) (n : Nat) :
    ∀ (i : Int) (m : Machine) (totalElapsed : Nat), totalElapsed < 2 ^ 64 →
      ∃ d err ops, trialLoop env n i m totalElapsed =
        ({ m with
            rdtscCalls := m.rdtscCalls + 2 * n
            mallocCalls := m.mallocCalls + n
            dummy := d
            stdout := m.stdout ++ (List.range n).map (fun (t : Nat) =>
              Output.iteracion (i + (t : Int) + 1)
                (trialElapsed env m.g_correctionFactor m.rdtscCalls t))
            stderr := err
            memOps := ops },
         (totalElapsed + exactSum env m.g_correctionFactor m.rdtscCalls n) % 2 ^ 64) := by
  induction n with
  | zero =>
    intro i m totalElapsed ht
    refine ⟨m.dummy, m.stderr, m.memOps, ?_⟩
    simp only [trialLoop, exactSum, List.range_zero, List.map_nil, List.sum_nil, Nat.add_zero,
      Nat.mul_zero, List.append_nil, Nat.mod_eq_of_lt ht]
  | succ n ih =>
    intro i m totalElapsed _
    obtain ⟨err1, ops1, h1⟩ := trial_eq env i m totalElapsed
    simp only [trialLoop]
    rw [h1]
    have hlt : add64 totalElapsed (trialElapsed env m.g_correctionFactor m.rdtscCalls 0)
        < 2 ^ 64 := by
      unfold add64
      omega
    obtain ⟨d, err, ops, h2⟩ := ih (i + 1) _ _ hlt
    refine ⟨d, err, ops, ?_⟩
    rw [h2, exactSum_succ]
    simp only [Prod.mk.injEq, Machine.mk.injEq, and_true, true_and]
    refine ⟨⟨by omega, by omega, ?_⟩, ?_⟩
    · rw [List.range_succ_eq_map, List.map_cons, List.map_map, List.append_assoc]
      congr 1
      simp only [List.singleton_append, Nat.cast_zero, add_zero, List.cons.injEq, true_and]
      apply List.map_congr_left
      intro t _
      simp only [Function.comp, trialElapsed_shift, Nat.cast_succ]
      congr 1
      omega
    · unfold add64
      omega

theorem toU64_of_nonneg (x : Int) (h0 : 0 ≤ x) (h1 : x < 2 ^ 64) : toU64 x = x.toNat := by
  unfold toU64
  omega

theorem toU64_ne_zero (x : Int) (hx : x ≠ 0) (h0 : INT_MIN ≤ x) (h1 : x ≤ INT_MAX) :
    toU64 x ≠ 0 := by
  unfold toU64
  unfold INT_MIN at h0
  unfold INT_MAX at h1
  omega

theorem measureAveraged_eq (env : Env) (its : Int) (m : Machine) :
    measureAveraged env its m =
      match div64 (trialLoop env its.toNat 0 m 0).2 (toU64 its) with
      | Except.error f => Except.error f
      | Except.ok averageElapsed =>
          Except.ok (printf (Output.promedio averageElapsed) (trialLoop env its.toNat 0 m 0).1) :=
  rfl

theorem measureAveraged_zero (env : Env) (m : Machine) :
    measureAveraged env 0 m = Except.error (Fault.divideByZero 0) := by
  rw [measureAveraged_eq]
  have h1 : (0 : Int).toNat = 0 := rfl
  have h2 : toU64 0 = 0 := by unfold toU64; omega
  rw [h1, h2]
  rfl

theorem measureAveraged_post (env : Env) (its : Int) (m : Machine)
    (hx : its ≠ 0) (h0 : INT_MIN ≤ its) (h1 : its ≤ INT_MAX) :
    ∃ d err ops, measureAveraged env its m = Except.ok
      { m with
        rdtscCalls := m.rdtscCalls + 2 * its.toNat
        mallocCalls := m.mallocCalls + its.toNat
        dummy := d
        stdout := m.stdout ++
          (List.range its.toNat).map (fun (t : Nat) =>
            Output.iteracion ((0 : Int) + (t : Int) + 1)
              (trialElapsed env m.g_correctionFactor m.rdtscCalls t)) ++
          [Output.promedio
            (exactSum env m.g_correctionFactor m.rdtscCalls its.toNat % 2 ^ 64 / toU64 its)]
        stderr := err
        memOps := ops } := by
  obtain ⟨d, err, ops, h⟩ := trialLoop_post env its.toNat 0 m 0 (by norm_num)
  refine ⟨d, err, ops, ?_⟩
  rw [measureAveraged_eq, h]
  have hne := toU64_ne_zero its hx h0 h1
  simp only [div64, if_neg hne, Nat.zero_add, printf]

theorem measureAveraged_twenty (env : Env) (m : Machine) :
    ∃ d err ops, measureAveraged env iterations m = Except.ok
      { m with
        rdtscCalls := m.rdtscCalls + 40
        mallocCalls := m.mallocCalls + 20
        dummy := d
        stdout := m.stdout ++ trialLines env m.g_correctionFactor m.rdtscCalls 20 ++
          [Output.promedio (exactSum env m.g_correctionFactor m.rdtscCalls 20 % 2 ^ 64 / 20)]
        stderr := err
        memOps := ops } := by
  obtain ⟨d, err, ops, h⟩ := measureAveraged_post env iterations m (by decide) (by decide)
    (by decide)
  refine ⟨d, err, ops, ?_⟩
  rw [h]
  have h1 : iterations.toNat = 20 := rfl
  have h2 : toU64 iterations = 20 := by unfold toU64 iterations; omega
  rw [h1, h2]
  simp only [trialLines, zero_add]

end benchmark_rdtsc1

/-! ## The workload accumulator -/

theorem sumFrom_closed (n : Nat) : ∀ i : Int, 2 * sumFrom n i = 2 * n * i + n * (n - 1) := by
  induction n with
  | zero => intro i; simp [sumFrom]
  | succ n ih =>
    intro i
    simp only [sumFrom, mul_add, ih (i + 1)]
    push_cast
    ring

theorem wrapInt32_add (x y : Int) : wrapInt32 (wrapInt32 x + y) = wrapInt32 (x + y) := by
  unfold wrapInt32
  omega

theorem sumLoop_wrap (n : Nat) :
    ∀ i x : Int, sumLoop n i (wrapInt32 x) = wrapInt32 (x + sumFrom n i) := by
  induction n with
  | zero => intro i x; simp [sumLoop, sumFrom]
  | succ n ih =>
    intro i x
    simp only [sumLoop, sumFrom, wrapInt32_add, ih]
    congr 1
    ring

theorem sumLoopChecked_prefix (n : Nat) :
    ∀ i d : Int, 0 ≤ i → i + n ≤ 65536 → 2 * d = i * (i - 1) →
      ∃ e, sumLoopChecked n i d = some e ∧ 2 * e = (i + n) * (i + n - 1) := by
  induction n with
  | zero =>
    intro i d _ _ hd
    exact ⟨d, rfl, by simpa using hd⟩
  | succ n ih =>
    intro i d hi hn hd
    have hi2 : i ≤ 65535 := by push_cast at hn; omega
    have hsq : i * i ≤ 65535 * i := by nlinarith
    have hsq0 : 0 ≤ i * i := mul_self_nonneg i
    have hrange : INT_MIN ≤ d + i ∧ d + i ≤ INT_MAX := by
      unfold INT_MIN INT_MAX
      constructor
      · nlinarith
      · nlinarith
    obtain ⟨e, he, he2⟩ := ih (i + 1) (d + i) (by omega) (by push_cast at hn ⊢; omega)
      (by ring_nf; ring_nf at hd; omega)
    refine ⟨e, ?_, ?_⟩
    · simp only [sumLoopChecked, if_pos hrange]
      exact he
    · rw [he2]
      push_cast
      ring

theorem sumLoopChecked_add (a b : Nat) :
    ∀ i d : Int, sumLoopChecked (a + b) i d =
      (sumLoopChecked a i d).bind (fun e => sumLoopChecked b (i + a) e) := by
  induction a with
  | zero => intro i d; simp [sumLoopChecked]
  | succ a ih =>
    intro i d
    have e : a + 1 + b = (a + b) + 1 := by omega
    rw [e]
    simp only [sumLoopChecked]
    split
    · rw [ih]
      congr 1
      funext e
      congr 1
      push_cast
      ring
    · rfl

theorem sumLoopChecked_succ (n : Nat) (i d : Int) :
    sumLoopChecked (n + 1) i d =
      if INT_MIN ≤ d + i ∧ d + i ≤ INT_MAX then sumLoopChecked n (i + 1) (d + i) else none :=
  rfl

theorem sumLoopChecked_upto (n : Nat) (hn : n = 65536) :
    sumLoopChecked n 0 0 = some 2147450880 := by
  obtain ⟨e, he, he2⟩ := sumLoopChecked_prefix n 0 0 (le_refl _) (by omega) (by norm_num)
  rw [he]
  congr 1
  subst hn
  norm_num at he2
  omega

theorem sumLoopChecked_first_overflow : sumLoopChecked 65536 0 0 = some 2147450880 :=
  sumLoopChecked_upto 65536 rfl

theorem sumLoopChecked_rest (n : Nat) : sumLoopChecked (n + 1) 65536 2147450880 = none := by
  rw [sumLoopChecked_succ, if_neg]
  unfold INT_MAX
  omega

theorem sumLoopChecked_overflows : sumLoopChecked 100000000 0 0 = none := by
  have e : (100000000 : Nat) = 65536 + (99934463 + 1) := by norm_num
  rw [e, sumLoopChecked_add, sumLoopChecked_first_overflow, Option.some_bind]
  exact sumLoopChecked_rest 99934463

theorem sumFrom_total (n : Nat) (hn : n = 100000000) : sumFrom n 0 = 4999999950000000 := by
  have h := sumFrom_closed n 0
  subst hn
  norm_num at h
  omega

theorem sumLoop_total (n : Nat) (hn : n = 100000000) : sumLoop n 0 0 = 887459712 := by
  have h0 : (0 : Int) = wrapInt32 0 := by unfold wrapInt32; norm_num
  have h := sumLoop_wrap n 0 0
  rw [← h0, sumFrom_total n hn] at h
  rw [h]
  unfold wrapInt32
  norm_num

/-! ## The correction -/

theorem correctElapsed_gt (raw cf : Nat) (hr : raw < 2 ^ 64) (h : cf < raw) :
    correctElapsed raw cf = raw - cf := by
  unfold correctElapsed sub64
  rw [if_pos h]
  omega

theorem correctElapsed_le (raw cf : Nat) (h : raw ≤ cf) : correctElapsed raw cf = raw := by
  unfold correctElapsed
  rw [if_neg (by omega)]

theorem correctElapsed_le_raw (raw cf : Nat) (hr : raw < 2 ^ 64) : correctElapsed raw cf ≤ raw := by
  by_cases h : cf < raw
  · rw [correctElapsed_gt raw cf hr h]
    omega
  · rw [correctElapsed_le raw cf (by omega)]

theorem correctElapsed_eq_zero (raw cf : Nat) (hr : raw < 2 ^ 64) (h : correctElapsed raw cf = 0) :
    raw = 0 := by
  by_cases hc : cf < raw
  · rw [correctElapsed_gt raw cf hr hc] at h
    omega
  · rw [correctElapsed_le raw cf (by omega)] at h
    exact h

theorem trialElapsed_le (env : Env) (cf base t : Nat)
    (h : reading env (base + 2 * t) ≤ reading env (base + 2 * t + 1)) :
    trialElapsed env cf base t + reading env (base + 2 * t) ≤ reading env (base + 2 * t + 1) := by
  unfold trialElapsed
  have h1 := correctElapsed_le_raw
    (sub64 (reading env (base + 2 * t + 1)) (reading env (base + 2 * t))) cf (sub64_lt _ _)
  have h2 := sub64_of_le _ _ (reading_lt env (base + 2 * t + 1)) h
  omega

theorem exactSum_telescope (env : Env) (cf : Nat) (k : Nat) :
    ∀ base, (∀ j, j < 2 * k + 1 → reading env (base + j) ≤ reading env (base + j + 1)) →
      exactSum env cf base (k + 1) + reading env base ≤ reading env (base + 2 * k + 1) := by
  induction k with
  | zero =>
    intro base h
    have h0 := trialElapsed_le env cf base 0 (h 0 (by omega))
    rw [exactSum_succ]
    simp only [exactSum, List.range_zero, List.map_nil, List.sum_nil, Nat.mul_zero,
      Nat.add_zero] at h0 ⊢
    exact h0
  | succ k ih =>
    intro base h
    have h0 := trialElapsed_le env cf base 0 (h 0 (by omega))
    have h1 := h 1 (by omega)
    have h2 := ih (base + 2) (fun j hj => by
      have := h (j + 2) (by omega)
      have e1 : base + 2 + j = base + (j + 2) := by omega
      rw [e1]
      exact this)
    rw [exactSum_succ]
    simp only [Nat.mul_zero, Nat.add_zero] at h0
    have e2 : base + 2 + 2 * k + 1 = base + 2 * (k + 1) + 1 := by omega
    rw [e2] at h2
    have e3 : base + 1 + 1 = base + 2 := by omega
    rw [e3] at h1
    omega

theorem exactSum_lt_of_monotone (env : Env) (cf base : Nat)
    (h : ∀ j, j < 39 → reading env (base + j) ≤ reading env (base + j + 1)) :
    exactSum env cf base 20 < 2 ^ 64 := by
  have h1 : exactSum env cf base 20 + reading env base ≤ reading env (base + 2 * 19 + 1) :=
    exactSum_telescope env cf 19 base h
  have h2 := reading_lt env (base + 2 * 19 + 1)
  omega

/-! ## Calibration: statements -/

theorem Calibrated.storesMinimum {env : Env} {m1 m2 : Machine} {lo hi : Nat}
    (h : Calibrated env m1 m2 lo hi) : StoresMinimum env m1 m2 := by
  have hcf : m2.g_correctionFactor = lo := by rw [h.machine]
  refine ⟨?_, ?_, ?_⟩
  · intro i hi
    rw [hcf, ← deltaN_cast]
    exact_mod_cast h.lo_le i hi
  · obtain ⟨j, hj, e⟩ := h.lo_attained
    refine ⟨j, hj, ?_⟩
    rw [hcf, ← deltaN_cast, e]
  · rw [h.machine]

theorem Calibrated.storesSpread {env : Env} {m1 m2 : Machine} {lo hi : Nat}
    (h : Calibrated env m1 m2 lo hi) : StoresSpread env m1 m2 lo hi := by
  have hcf : m2.g_correctionFactor = lo := by rw [h.machine]
  have hacc : m2.g_accuracy = hi - lo := by rw [h.machine]
  have hle := h.lo_le_hi
  have hlt := h.hi_lt
  refine ⟨?_, ?_, hle, ?_, hcf, ?_, ?_, ?_⟩
  · intro i hi
    rw [← deltaN_cast]
    exact_mod_cast h.le_hi i hi
  · obtain ⟨j, hj, e⟩ := h.hi_attained
    refine ⟨j, hj, ?_⟩
    rw [← deltaN_cast, e]
  · rw [sub64_of_le _ _ hlt hle]
    omega
  · rw [hacc]
    omega
  · rw [hcf, hacc]
    omega
  · intro h5
    obtain ⟨j, hj, e⟩ := h.lo_attained
    obtain ⟨k, hk, e2⟩ := h.hi_attained
    have a := h5 j hj
    have b := h5 k hk
    rw [← deltaN_cast] at a b
    rw [hcf, hacc]
    omega

/-- C1: in both source files, after `WarmupRDTSC` has consumed 160 counter readings, the
stored `g_correctionFactor` is at most each of the 80 deltas
`(r_{2i+1} - r_{2i}) mod 2 ^ 64` and equals one of them: it is exactly their minimum. -/
theorem warmup_stores_minimum_delta (env : Env) (m : Machine) :
    StoresMinimum env m (benchmark_rdtsc.WarmupRDTSC env m) ∧
    StoresMinimum env m (benchmark_rdtsc1.WarmupRDTSC env m) :=
  ⟨(benchmark_rdtsc.WarmupRDTSC_calibrated env m).storesMinimum,
   (benchmark_rdtsc1.WarmupRDTSC1_calibrated env m).storesMinimum⟩

/-- The statement of C1 at a counter advancing five cycles per read, for the delta of index 3. -/
theorem warmup_stores_minimum_delta_witness :
    (3 < 80) ∧
    ((benchmark_rdtsc.WarmupRDTSC steadyEnv Machine.init).g_correctionFactor : Int) ≤
      delta steadyEnv Machine.init.rdtscCalls 3 :=
  ⟨by decide, (warmup_stores_minimum_delta steadyEnv Machine.init).1.le_all 3 (by decide)⟩

/-- C3: in both source files, after the 80 iterations of the loop of `WarmupRDTSC`,
`maxDiff` is the maximum of the 80 deltas and `minDiff ≤ maxDiff`; the unsigned subtraction
`maxDiff - minDiff` does not wrap, `g_accuracy` is the exact difference, and
`g_correctionFactor + g_accuracy` is the maximum delta.  When all 80 deltas are 5 the
results are `g_correctionFactor = 5` and `g_accuracy = 0`. -/
theorem warmup_stores_exact_spread (env : Env) (m : Machine) :
    StoresSpread env m (benchmark_rdtsc.WarmupRDTSC env m)
      (benchmark_rdtsc.warmupLoop env 80 m UINT64_MAX 0).2.1
      (benchmark_rdtsc.warmupLoop env 80 m UINT64_MAX 0).2.2 ∧
    StoresSpread env m (benchmark_rdtsc1.WarmupRDTSC env m)
      (benchmark_rdtsc1.warmupLoop env 80 m UINT64_MAX 0).2.1
      (benchmark_rdtsc1.warmupLoop env 80 m UINT64_MAX 0).2.2 :=
  ⟨(benchmark_rdtsc.WarmupRDTSC_calibrated env m).storesSpread,
   (benchmark_rdtsc1.WarmupRDTSC1_calibrated env m).storesSpread⟩

theorem steadyEnv_delta (i : Nat) : delta steadyEnv Machine.init.rdtscCalls i = 5 := by
  simp only [delta, reading, steadyEnv, Machine.init]
  omega

/-- The statement of C3 at a counter advancing five cycles per read: all deltas are 5. -/
theorem warmup_stores_exact_spread_witness :
    (∀ i, i < 80 → delta steadyEnv Machine.init.rdtscCalls i = 5) ∧
    (benchmark_rdtsc.WarmupRDTSC steadyEnv Machine.init).g_correctionFactor = 5 ∧
    (benchmark_rdtsc.WarmupRDTSC steadyEnv Machine.init).g_accuracy = 0 :=
  ⟨fun i _ => steadyEnv_delta i,
   (warmup_stores_exact_spread steadyEnv Machine.init).1.all_five (fun i _ => steadyEnv_delta i)⟩

/-- C6: in both source files the values of `g_correctionFactor` and `g_accuracy` after
`WarmupRDTSC` depend only on the 160 readings taken during the call: two calls that start
from any two states and take the same 160 readings leave identical globals. -/
theorem recalibration_overwrites_globals (env1 env2 : Env) (m1 m2 : Machine)
    (h : ∀ k, k < 160 → reading env1 (m1.rdtscCalls + k) = reading env2 (m2.rdtscCalls + k)) :
    ((benchmark_rdtsc.WarmupRDTSC env1 m1).g_correctionFactor =
        (benchmark_rdtsc.WarmupRDTSC env2 m2).g_correctionFactor ∧
      (benchmark_rdtsc.WarmupRDTSC env1 m1).g_accuracy =
        (benchmark_rdtsc.WarmupRDTSC env2 m2).g_accuracy) ∧
    ((benchmark_rdtsc1.WarmupRDTSC env1 m1).g_correctionFactor =
        (benchmark_rdtsc1.WarmupRDTSC env2 m2).g_correctionFactor ∧
      (benchmark_rdtsc1.WarmupRDTSC env1 m1).g_accuracy =
        (benchmark_rdtsc1.WarmupRDTSC env2 m2).g_accuracy) := by
  have h0 := benchmark_rdtsc.WarmupRDTSC_congr env1 env2 m1 m2 h
  refine ⟨h0, ?_⟩
  rw [benchmark_rdtsc1.WarmupRDTSC_eq, benchmark_rdtsc1.WarmupRDTSC_eq]
  exact h0

/-- The statement of C6 for a fresh state and a state holding earlier calibration values. -/
theorem recalibration_overwrites_globals_witness :
    (∀ k, k < 160 →
      reading steadyEnv (Machine.init.rdtscCalls + k) =
        reading steadyEnv (staleMachine.rdtscCalls + k)) ∧
    (benchmark_rdtsc.WarmupRDTSC steadyEnv Machine.init).g_correctionFactor =
      (benchmark_rdtsc.WarmupRDTSC steadyEnv staleMachine).g_correctionFactor :=
  ⟨fun _ _ => rfl,
   (recalibration_overwrites_globals steadyEnv steadyEnv Machine.init staleMachine
      (fun _ _ => rfl)).1.1⟩

/-! ## The correction policy: statements -/

/-- C2: for all `start`, `end` and correction factor `cf` (all naturals, in particular all
64-bit values), with `raw = (end - start) mod 2 ^ 64` as the unsigned subtraction computes
it, the reported elapsed value is the exact integer `raw - cf` when `raw > cf` and is `raw`
when `raw ≤ cf`, hence never above `raw`; `(100, 100000, 5)` gives 99895 and `(100, 103, 5)`
gives 3; `main` of `benchmark_rdtsc.c` prints the value this policy gives for its pair of
readings and the stored correction factor, and so does each trial of `benchmark_rdtsc1.c`. -/
theorem correction_policy_single_measurement :
    (∀ start end_ cf : Nat,
      ((sub64 end_ start : Nat) : Int) = rawElapsed start end_ ∧
      ((cf : Int) < rawElapsed start end_ →
        ((correctElapsed (sub64 end_ start) cf : Nat) : Int) = rawElapsed start end_ - (cf : Int)) ∧
      (rawElapsed start end_ ≤ (cf : Int) →
        ((correctElapsed (sub64 end_ start) cf : Nat) : Int) = rawElapsed start end_) ∧
      ((correctElapsed (sub64 end_ start) cf : Nat) : Int) ≤ rawElapsed start end_) ∧
    correctElapsed (sub64 100000 100) 5 = 99895 ∧
    correctElapsed (sub64 103 100) 5 = 3 ∧
    (∀ (env : Env) (m : Machine),
      (benchmark_rdtsc.main env m).stdout.getLast? = some (Output.elapsedLoop
        (correctElapsed
          (sub64 (reading env (m.rdtscCalls + 161)) (reading env (m.rdtscCalls + 160)))
          (benchmark_rdtsc.main env m).g_correctionFactor))) ∧
    (∀ (env : Env) (i : Int) (m : Machine) (totalElapsed : Nat),
      (benchmark_rdtsc1.trial env i m totalElapsed).1.stdout = m.stdout ++
        [Output.iteracion (i + 1)
          (correctElapsed (sub64 (reading env (m.rdtscCalls + 1)) (reading env m.rdtscCalls))
            m.g_correctionFactor)]) := by
  refine ⟨?_, by decide, by decide, ?_, ?_⟩
  · intro start end_ cf
    have hraw : ((sub64 end_ start : Nat) : Int) = rawElapsed start end_ := sub64_cast _ _
    have hlt := sub64_lt end_ start
    rw [← hraw]
    refine ⟨rfl, ?_, ?_, ?_⟩
    · intro h
      have h2 : cf < sub64 end_ start := by exact_mod_cast h
      rw [correctElapsed_gt _ _ hlt h2]
      omega
    · intro h
      have h2 : sub64 end_ start ≤ cf := by exact_mod_cast h
      rw [correctElapsed_le _ _ h2]
    · exact_mod_cast correctElapsed_le_raw _ _ hlt
  · intro env m
    obtain ⟨lo, hi, _, _, h2, h3⟩ := benchmark_rdtsc.main_post env m
    rw [h3, h2]
    simp
  · intro env i m totalElapsed
    obtain ⟨err, ops, h⟩ := benchmark_rdtsc1.trial_eq env i m totalElapsed
    rw [h]
    simp [trialElapsed]

/-- The statement of C2 at `start = 100`, `end = 100000`, `cf = 5`. -/
theorem correction_policy_single_measurement_witness :
    ((5 : Int) < rawElapsed 100 100000) ∧
    ((correctElapsed (sub64 100000 100) 5 : Nat) : Int) = rawElapsed 100 100000 - (5 : Int) :=
  ⟨by decide, (correction_policy_single_measurement.1 100 100000 5).2.1 (by decide)⟩

/-- C10: the correction is not monotone in the raw elapsed value: for every `cf` with
`2 ≤ cf < 2 ^ 64 - 1` the raw values `cf < cf + 1` are corrected to `cf` and to `1`, so the
smaller raw value gets the larger corrected value; and for every `cf` and every 64-bit
`raw` the corrected value is 0 only if `raw` is 0. -/
theorem correction_not_monotone :
    (∀ cf : Nat, 2 ≤ cf → cf < 2 ^ 64 - 1 →
      correctElapsed cf cf = cf ∧ correctElapsed (cf + 1) cf = 1 ∧
      ∃ raw1 raw2 : Nat, raw1 < raw2 ∧ raw2 < 2 ^ 64 ∧
        correctElapsed raw1 cf > correctElapsed raw2 cf) ∧
    (∀ cf raw : Nat, raw < 2 ^ 64 → correctElapsed raw cf = 0 → raw = 0) := by
  refine ⟨?_, fun cf raw hr h => correctElapsed_eq_zero raw cf hr h⟩
  intro cf h2 hlt
  have e1 : correctElapsed cf cf = cf := correctElapsed_le cf cf (le_refl _)
  have e2 : correctElapsed (cf + 1) cf = 1 := by
    rw [correctElapsed_gt (cf + 1) cf (by omega) (by omega)]
    omega
  refine ⟨e1, e2, cf, cf + 1, by omega, by omega, ?_⟩
  rw [e1, e2]
  omega

/-- The statement of C10 at `cf = 5`. -/
theorem correction_not_monotone_witness :
    (2 ≤ 5) ∧ (5 < 2 ^ 64 - 1) ∧ correctElapsed 5 5 = 5 ∧ correctElapsed (5 + 1) 5 = 1 :=
  ⟨by decide, by decide,
   (correction_not_monotone.1 5 (by decide) (by decide)).1,
   (correction_not_monotone.1 5 (by decide) (by decide)).2.1⟩

/-! ## The simple program: statement -/

/-- C8: for every run of `main` of `benchmark_rdtsc.c`, the first 160 readings are consumed
by the calibration, whose stored correction factor `cf` is the minimum of the 80 deltas; the
measurement then reads `start = r160` and `end = r161`, and the line
`Elapsed clocks for loop` carries the correction with `cf` of
`raw = (r161 - r160) mod 2 ^ 64`; 162 readings are taken in all. -/
theorem main_measures_after_calibration (env : Env) (m : Machine) :
    ∃ cf acc : Nat,
      (∀ i, i < 80 → (cf : Int) ≤ delta env m.rdtscCalls i) ∧
      (∃ j, j < 80 ∧ (cf : Int) = delta env m.rdtscCalls j) ∧
      (benchmark_rdtsc.WarmupRDTSC env (printf Output.calibrando m)).g_correctionFactor = cf ∧
      (benchmark_rdtsc.WarmupRDTSC env (printf Output.calibrando m)).rdtscCalls =
        m.rdtscCalls + 160 ∧
      ((sub64 (reading env (m.rdtscCalls + 161)) (reading env (m.rdtscCalls + 160)) : Nat) : Int)
        = rawElapsed (reading env (m.rdtscCalls + 160)) (reading env (m.rdtscCalls + 161)) ∧
      (benchmark_rdtsc.main env m).stdout = m.stdout ++
        [Output.calibrando, Output.correctionFactor cf, Output.accuracy acc,
         Output.elapsedLoop (correctElapsed
          (sub64 (reading env (m.rdtscCalls + 161)) (reading env (m.rdtscCalls + 160))) cf)] ∧
      (benchmark_rdtsc.main env m).rdtscCalls = m.rdtscCalls + 162 := by
  obtain ⟨lo, hi, hc, h1, _, h3⟩ := benchmark_rdtsc.main_post env m
  have hs := hc.storesMinimum
  have hcf : (benchmark_rdtsc.WarmupRDTSC env (printf Output.calibrando m)).g_correctionFactor
      = lo := by rw [hc.machine]
  have ha := hs.le_all
  have hb := hs.attained
  rw [hcf] at ha hb
  exact ⟨lo, hi - lo, ha, hb, hcf, hs.consumed, sub64_cast _ _, h3, h1⟩

/-- The statement of C8 at a counter advancing five cycles per read, for the delta of index 3. -/
theorem main_measures_after_calibration_witness :
    ∃ cf : Nat, (3 < 80) ∧ (cf : Int) ≤ delta steadyEnv Machine.init.rdtscCalls 3 := by
  obtain ⟨cf, _, h, _⟩ := main_measures_after_calibration steadyEnv Machine.init
  exact ⟨cf, by decide, h 3 (by decide)⟩

/-! ## The averaged measurement: statements -/

/-- C4, as stated, fails: with correction factor 0 and twenty pairs `(start, end) = (1, 0)`
every corrected trial value is `2 ^ 64 - 1`, so `floor(S / 20) = 18446744073709551615`, while
the 64-bit accumulator wraps and the program reports `922337203685477579`. -/
theorem averaged_measurement_wraps :
    ∃ m2, benchmark_rdtsc1.measureAveraged wrapEnv benchmark_rdtsc1.iterations Machine.init
        = Except.ok m2 ∧
      m2.stdout.getLast? = some (Output.promedio 922337203685477579) ∧
      exactSum wrapEnv Machine.init.g_correctionFactor Machine.init.rdtscCalls 20 / 20
        = 18446744073709551615 ∧
      m2.stdout.getLast? ≠ some (Output.promedio
        (exactSum wrapEnv Machine.init.g_correctionFactor Machine.init.rdtscCalls 20 / 20)) := by
  obtain ⟨d, err, ops, h⟩ := benchmark_rdtsc1.measureAveraged_twenty wrapEnv Machine.init
  have hs : exactSum wrapEnv Machine.init.g_correctionFactor Machine.init.rdtscCalls 20
      = 368934881474191032300 := by decide
  refine ⟨_, h, ?_, ?_, ?_⟩
  · simp [hs]
  · rw [hs]
  · simp [hs]

/-- C4, amended: for every state `m` (hence every correction factor) and every twenty pairs
of readings, the averaged measurement of `benchmark_rdtsc1.c` returns normally, prints the
twenty corrected trial values in order, and reports `floor((S mod 2 ^ 64) / 20)` where `S` is
the exact sum of those values; this is `floor(S / 20)` whenever `S < 2 ^ 64`, which holds in
particular when the forty readings are non-decreasing. -/
theorem averaged_measurement_mod (env : Env) (m : Machine) :
    ∃ m2, benchmark_rdtsc1.measureAveraged env benchmark_rdtsc1.iterations m = Except.ok m2 ∧
      m2.rdtscCalls = m.rdtscCalls + 40 ∧
      m2.stdout = m.stdout ++ trialLines env m.g_correctionFactor m.rdtscCalls 20 ++
        [Output.promedio (exactSum env m.g_correctionFactor m.rdtscCalls 20 % 2 ^ 64 / 20)] ∧
      (exactSum env m.g_correctionFactor m.rdtscCalls 20 < 2 ^ 64 →
        m2.stdout = m.stdout ++ trialLines env m.g_correctionFactor m.rdtscCalls 20 ++
          [Output.promedio (exactSum env m.g_correctionFactor m.rdtscCalls 20 / 20)]) ∧
      ((∀ j, j < 39 → reading env (m.rdtscCalls + j) ≤ reading env (m.rdtscCalls + j + 1)) →
        exactSum env m.g_correctionFactor m.rdtscCalls 20 < 2 ^ 64) ∧
      benchmark_rdtsc1.main env m = benchmark_rdtsc1.measureAveraged env
        benchmark_rdtsc1.iterations (benchmark_rdtsc1.WarmupRDTSC env (printf Output.calibrando m)) := by
  obtain ⟨d, err, ops, h⟩ := benchmark_rdtsc1.measureAveraged_twenty env m
  refine ⟨_, h, rfl, rfl, ?_, exactSum_lt_of_monotone env _ _, rfl⟩
  intro hlt
  rw [Nat.mod_eq_of_lt hlt]

/-- The amended statement of C4 at a counter advancing five cycles per read, where the exact
sum is below `2 ^ 64`. -/
theorem averaged_measurement_mod_witness :
    (exactSum steadyEnv Machine.init.g_correctionFactor Machine.init.rdtscCalls 20 < 2 ^ 64) ∧
    ∃ m2, benchmark_rdtsc1.measureAveraged steadyEnv benchmark_rdtsc1.iterations Machine.init
        = Except.ok m2 ∧
      m2.stdout = Machine.init.stdout ++
        trialLines steadyEnv Machine.init.g_correctionFactor Machine.init.rdtscCalls 20 ++
        [Output.promedio
          (exactSum steadyEnv Machine.init.g_correctionFactor Machine.init.rdtscCalls 20 / 20)] := by
  obtain ⟨m2, h1, _, _, h4, _⟩ := averaged_measurement_mod steadyEnv Machine.init
  exact ⟨by decide, m2, h1, h4 (by decide)⟩

/-- C5, as stated, fails: given a trial count of 0 the averaged measurement does not reject
the count; it runs no trial and evaluates `totalElapsed / iterations` with both operands 0,
which is the division fault. -/
theorem zero_trials_reach_division :
    benchmark_rdtsc1.trialLoop steadyEnv (0 : Int).toNat 0 Machine.init 0 = (Machine.init, 0) ∧
    div64 0 (toU64 0) = Except.error (Fault.divideByZero 0) ∧
    benchmark_rdtsc1.measureAveraged steadyEnv 0 Machine.init
      = Except.error (Fault.divideByZero 0) :=
  ⟨rfl, by rw [show toU64 0 = 0 by unfold toU64; omega]; rfl,
   benchmark_rdtsc1.measureAveraged_zero _ _⟩

/-- C5, amended: the averaged measurement has no check of its trial count.  Given 0 it
evaluates the division with divisor 0 and faults; given any other `int` value the division
completes and a result is reported; the program itself uses the constant 20 and `main`
always returns normally. -/
theorem trial_count_unchecked (env : Env) (m : Machine) :
    benchmark_rdtsc1.measureAveraged env 0 m = Except.error (Fault.divideByZero 0) ∧
    (∀ its : Int, its ≠ 0 → INT_MIN ≤ its → its ≤ INT_MAX →
      ∃ m2, benchmark_rdtsc1.measureAveraged env its m = Except.ok m2) ∧
    benchmark_rdtsc1.iterations = 20 ∧
    ∃ m2, benchmark_rdtsc1.main env m = Except.ok m2 := by
  refine ⟨benchmark_rdtsc1.measureAveraged_zero env m, ?_, rfl, ?_⟩
  · intro its hx h0 h1
    obtain ⟨d, err, ops, h⟩ := benchmark_rdtsc1.measureAveraged_post env its m hx h0 h1
    exact ⟨_, h⟩
  · obtain ⟨d, err, ops, h⟩ := benchmark_rdtsc1.measureAveraged_twenty env
      (benchmark_rdtsc1.WarmupRDTSC env (printf Output.calibrando m))
    exact ⟨_, h⟩

/-- The amended statement of C5 at the trial count 20. -/
theorem trial_count_unchecked_witness :
    ((20 : Int) ≠ 0) ∧ (INT_MIN ≤ 20) ∧ ((20 : Int) ≤ INT_MAX) ∧
    ∃ m2, benchmark_rdtsc1.measureAveraged steadyEnv 20 Machine.init = Except.ok m2 :=
  ⟨by decide, by decide, by decide,
   (trial_count_unchecked steadyEnv Machine.init).2.1 20 (by decide) (by decide) (by decide)⟩

/-! ## Allocation failure in `flushCache`: statement -/

theorem reading_congr (env1 env2 : Env) (h : env2.tsc = env1.tsc) (k : Nat) :
    reading env2 k = reading env1 k := by
  unfold reading
  rw [h]

theorem trialElapsed_congr (env1 env2 : Env) (h : env2.tsc = env1.tsc) (cf base t : Nat) :
    trialElapsed env2 cf base t = trialElapsed env1 cf base t := by
  unfold trialElapsed
  rw [reading_congr env1 env2 h, reading_congr env1 env2 h]

/-- C7: when the allocation in `flushCache` fails, `flushCache` writes its message to the
error stream and returns with every other part of the state unchanged apart from the count
of `malloc` calls: no buffer store, no cache-line flush, no fence and no free is performed.
The trial that called it then reads `start` and `end`, prints the corrected elapsed value of
that pair and adds it to the total, exactly as the trial does on any machine with the same
counter whatever its allocations do, a successful flush included. -/
theorem flush_allocation_failure_recoverable (env : Env) (m : Machine)
    (h : env.mallocOk m.mallocCalls = false) :
    benchmark_rdtsc1.flushCache env m =
      { m with
        mallocCalls := m.mallocCalls + 1
        stderr := m.stderr ++ ["No se pudo asignar el buffer para flushCache"] } ∧
    (benchmark_rdtsc1.flushCache env m).memOps = m.memOps ∧
    ∀ (i : Int) (totalElapsed : Nat),
      (benchmark_rdtsc1.trial env i m totalElapsed).1.rdtscCalls = m.rdtscCalls + 2 ∧
      (benchmark_rdtsc1.trial env i m totalElapsed).1.stdout = m.stdout ++
        [Output.iteracion (i + 1)
          (correctElapsed (sub64 (reading env (m.rdtscCalls + 1)) (reading env m.rdtscCalls))
            m.g_correctionFactor)] ∧
      (benchmark_rdtsc1.trial env i m totalElapsed).2 = add64 totalElapsed
        (correctElapsed (sub64 (reading env (m.rdtscCalls + 1)) (reading env m.rdtscCalls))
          m.g_correctionFactor) ∧
      (benchmark_rdtsc1.trial env i m totalElapsed).1.memOps = m.memOps ∧
      ∀ env2 : Env, env2.tsc = env.tsc →
        (benchmark_rdtsc1.trial env2 i m totalElapsed).1.rdtscCalls =
          (benchmark_rdtsc1.trial env i m totalElapsed).1.rdtscCalls ∧
        (benchmark_rdtsc1.trial env2 i m totalElapsed).1.stdout =
          (benchmark_rdtsc1.trial env i m totalElapsed).1.stdout ∧
        (benchmark_rdtsc1.trial env2 i m totalElapsed).1.g_correctionFactor =
          (benchmark_rdtsc1.trial env i m totalElapsed).1.g_correctionFactor ∧
        (benchmark_rdtsc1.trial env2 i m totalElapsed).1.g_accuracy =
          (benchmark_rdtsc1.trial env i m totalElapsed).1.g_accuracy ∧
        (benchmark_rdtsc1.trial env2 i m totalElapsed).1.dummy =
          (benchmark_rdtsc1.trial env i m totalElapsed).1.dummy ∧
        (benchmark_rdtsc1.trial env2 i m totalElapsed).2 =
          (benchmark_rdtsc1.trial env i m totalElapsed).2 := by
  have hf := benchmark_rdtsc1.flushCache_fail env m h
  refine ⟨hf, by rw [hf], ?_⟩
  intro i totalElapsed
  have ht := benchmark_rdtsc1.trial_fail env i m totalElapsed h
  refine ⟨by rw [ht], ?_, ?_, by rw [ht], ?_⟩
  · rw [ht]
    simp [trialElapsed]
  · rw [ht]
    simp [trialElapsed]
  · intro env2 h2
    obtain ⟨err, ops, ht2⟩ := benchmark_rdtsc1.trial_eq env2 i m totalElapsed
    rw [ht, ht2]
    simp [trialElapsed_congr env env2 h2]

/-- The statement of C7 on a machine where the first allocation fails. -/
theorem flush_allocation_failure_recoverable_witness :
    (noMemoryEnv.mallocOk Machine.init.mallocCalls = false) ∧
    (benchmark_rdtsc1.flushCache noMemoryEnv Machine.init).memOps = Machine.init.memOps :=
  ⟨rfl, (flush_allocation_failure_recoverable noMemoryEnv Machine.init rfl).2.1⟩

/-! ## The workload accumulator: statement -/

/-- C9 fails on the code: the exact sums stay in the range of `int` for `i = 0 .. 65535`,
where `dummy = 2147450880`; the step `dummy += 65536` exceeds `INT_MAX`, so the loop of
100000000 steps overflows.  The exact sum is 4999999950000000, while the wrapping machine
addition leaves `dummy = 887459712`, in `testOperation` and in `main` of
`benchmark_rdtsc.c` alike. -/
theorem workload_accumulator_overflows :
    sumLoopChecked 65536 0 0 = some 2147450880 ∧
    INT_MAX < 2147450880 + 65536 ∧
    sumLoopChecked 100000000 0 0 = none ∧
    sumFrom 100000000 0 = 4999999950000000 ∧
    sumLoop 100000000 0 0 = 887459712 ∧
    (∀ m : Machine, (benchmark_rdtsc1.testOperation m).dummy = 887459712) ∧
    (∀ (env : Env) (m : Machine), (benchmark_rdtsc.main env m).dummy = 887459712) := by
  refine ⟨sumLoopChecked_first_overflow, by decide, sumLoopChecked_overflows,
    sumFrom_total _ rfl, sumLoop_total _ rfl, ?_, ?_⟩
  · intro m
    have h := sumLoop_total 100000000 rfl
    rw [benchmark_rdtsc1.testOperation_eq]
    dsimp only
    rw [h]
  · intro env m
    have h := sumLoop_total 100000000 rfl
    rw [benchmark_rdtsc.main_eq]
    dsimp only
    rw [h]
